import Mathlib

/-!
Shallow embedding of the InternalBookingSystem repository (TypeScript/Express/Drizzle).

The model follows `server/storage.ts` — the `DatabaseStorage` class that
`server/routes.ts` imports via `./storage`, in particular its
`checkBookingConflict` — and the Express route handlers in `server/routes.ts`
(`POST /api/bookings`, `PUT /api/bookings/:id`, `DELETE /api/bookings/:id` and the
resource routes), together with the table schema in `shared/schema.ts`.
The repository also contains a second copy of the storage module (under
`src/unnamed`) whose exclusion clause is repaired to
`not(eq(bookings.id, excludeBookingId))`; nothing imports it, so this
development embeds the live `server/storage.ts`, whose exclusion branch is
broken (see `checkBookingConflict` below).

Timestamps (`Date` values / Postgres `timestamp`) are modelled as `Int` instants;
serial primary keys as `Nat` starting at 1, the PostgreSQL `serial` default.
-/

/-- A booking row (`bookings` table in `shared/schema.ts`). -/
structure Booking where
  id : Nat
  resourceId : Nat
  startTime : Int
  endTime : Int
  bookedBy : String
  purpose : String
deriving Repr, DecidableEq

/-- A resource row (`resources` table in `shared/schema.ts`). -/
structure Resource where
  id : Nat
  name : String
  description : Option String
  location : String
  capacity : Int
  isAvailable : Bool
deriving Repr, DecidableEq

/-- The database state: the two tables plus the serial-id counters. -/
structure Store where
  resources : List Resource
  bookings : List Booking
  nextResourceId : Nat
  nextBookingId : Nat
deriving Repr, DecidableEq

/-- A freshly created database: both tables empty, serial counters at 1. -/
def emptyStore : Store := ⟨[], [], 1, 1⟩

/-- The three-case overlap test of `checkBookingConflict`
(server/storage.ts lines 110-117), against a stored interval [bStart, bEnd]:
1. the new booking starts during the existing booking
   (`gte(startTime, bookings.startTime), lte(startTime, bookings.endTime)`);
2. the new booking ends during the existing booking
   (`gte(endTime, bookings.startTime), lte(endTime, bookings.endTime)`);
3. the new booking completely encompasses the existing booking
   (`lte(startTime, bookings.startTime), gte(endTime, bookings.endTime)`).
All comparisons are inclusive (`lte`/`gte`). -/
def threeCaseOverlap (startTime endTime bStart bEnd : Int) : Bool :=
  (decide (bStart ≤ startTime) && decide (bEnd ≥ startTime))
    || (decide (bStart ≤ endTime) && decide (bEnd ≥ endTime))
    || (decide (bStart ≥ startTime) && decide (bEnd ≤ endTime))

/-- The row filter of the base `SELECT` in `checkBookingConflict`
(server/storage.ts lines 104-118): `and(eq(bookings.resourceId, resourceId),
or(...))` — same resource and three-case inclusive overlap. -/
def bookingMatches (resourceId : Nat) (startTime endTime : Int)
    (b : Booking) : Bool :=
  b.resourceId == resourceId
    && threeCaseOverlap startTime endTime b.startTime b.endTime

/-- The base query of `checkBookingConflict`: the bookings rows passing
`bookingMatches`; `conflicts.length > 0` is whether at least one row matched. -/
def conflictQuery (store : Store) (resourceId : Nat)
    (startTime endTime : Int) : Bool :=
  store.bookings.any (bookingMatches resourceId startTime endTime)

/-- JavaScript truthiness of the optional `excludeBookingId`
(`if (excludeBookingId)`): present and nonzero. -/
def exclTruthy (excludeBookingId : Option Nat) : Bool :=
  match excludeBookingId with
  | some eid => eid != 0
  | none => false

/-- `DatabaseStorage.checkBookingConflict` (server/storage.ts lines 103-127).
When `excludeBookingId` is truthy the method reassigns
`query = query.where(and(query.where, eq(bookings.id, excludeBookingId)))`:
this passes the builder's `where` method itself as a condition and adds an
`eq` (not a not-equal) on the id, so the built query is invalid and awaiting
it rejects instead of producing rows — the exclusion never removes a row from
the comparison set. Modelled as `.error ()`; callers observe the rejection
(the routes answer 500 from their catch blocks). Without a truthy exclusion
the awaited base query resolves and the method returns
`conflicts.length > 0`. -/
def checkBookingConflict (store : Store) (resourceId : Nat)
    (startTime endTime : Int) (excludeBookingId : Option Nat) : Except Unit Bool :=
  if exclTruthy excludeBookingId then
    .error ()
  else
    .ok (conflictQuery store resourceId startTime endTime)

/-! ### Characterisation lemmas for the checker -/

/-- Unfolding of the row filter into a proposition. -/
lemma bookingMatches_iff (resourceId : Nat) (startTime endTime : Int)
    (b : Booking) :
    bookingMatches resourceId startTime endTime b = true ↔
      b.resourceId = resourceId ∧
      ((b.startTime ≤ startTime ∧ startTime ≤ b.endTime)
        ∨ (b.startTime ≤ endTime ∧ endTime ≤ b.endTime)
        ∨ (startTime ≤ b.startTime ∧ b.endTime ≤ endTime)) := by
  simp [bookingMatches, threeCaseOverlap, Bool.and_eq_true, Bool.or_eq_true,
    decide_eq_true_eq, beq_iff_eq, ge_iff_le, and_assoc]
  tauto

/-- The base query returns `true` iff some row passes the filter. -/
lemma conflictQuery_iff (store : Store) (resourceId : Nat)
    (startTime endTime : Int) :
    conflictQuery store resourceId startTime endTime = true ↔
      ∃ b ∈ store.bookings,
        b.resourceId = resourceId ∧
        ((b.startTime ≤ startTime ∧ startTime ≤ b.endTime)
          ∨ (b.startTime ≤ endTime ∧ endTime ≤ b.endTime)
          ∨ (startTime ≤ b.startTime ∧ b.endTime ≤ endTime)) := by
  simp only [conflictQuery, List.any_eq_true]
  constructor
  · rintro ⟨b, hb, hm⟩
    exact ⟨b, hb, (bookingMatches_iff _ _ _ b).mp hm⟩
  · rintro ⟨b, hb, hm⟩
    exact ⟨b, hb, (bookingMatches_iff _ _ _ b).mpr hm⟩

/-- If the base query returns `false`, then no booking on the resource even
weakly overlaps the candidate; in particular none strictly overlaps it. -/
lemma no_overlap_of_query_false {store : Store} {resourceId : Nat}
    {startTime endTime : Int}
    (h : conflictQuery store resourceId startTime endTime = false)
    {b : Booking} (hb : b ∈ store.bookings) (hr : b.resourceId = resourceId) :
    ¬(startTime < b.endTime ∧ b.startTime < endTime) := by
  intro hov
  have : conflictQuery store resourceId startTime endTime = true := by
    rw [conflictQuery_iff]
    refine ⟨b, hb, hr, ?_⟩
    omega
  rw [h] at this
  exact Bool.false_ne_true this

/-! ### Storage-layer write operations (`server/storage.ts`, schema FK from
`shared/schema.ts`: `bookings.resourceId references resources.id`) -/

/-- Payload accepted by `POST /api/bookings` after `insertBookingSchema.parse`
(`shared/schema.ts`: all booking columns except the serial `id`). -/
structure InsertBooking where
  resourceId : Nat
  startTime : Int
  endTime : Int
  bookedBy : String
  purpose : String
deriving Repr, DecidableEq

/-- Payload accepted by `PUT /api/bookings/:id` after
`insertBookingSchema.partial().parse`: every field optional. -/
structure UpdateBooking where
  resourceId : Option Nat
  startTime : Option Int
  endTime : Option Int
  bookedBy : Option String
  purpose : Option String
deriving Repr, DecidableEq

/-- Payload of `POST /api/resources` after `insertResourceSchema.parse`. -/
structure InsertResource where
  name : String
  description : Option String
  location : String
  capacity : Int
  isAvailable : Bool
deriving Repr, DecidableEq

/-- Payload of `PUT /api/resources/:id` after `insertResourceSchema.partial().parse`. -/
structure UpdateResource where
  name : Option String
  description : Option (Option String)
  location : Option String
  capacity : Option Int
  isAvailable : Option Bool
deriving Repr, DecidableEq

/-- `DatabaseStorage.getBooking`: select the bookings row with the given id. -/
def getBooking (store : Store) (id : Nat) : Option Booking :=
  store.bookings.find? (fun b => b.id == id)

/-- `DatabaseStorage.createBooking`: `INSERT INTO bookings`. The serial column
assigns `nextBookingId`; the insert throws (`.error`) when the foreign key
`resourceId references resources.id` is violated, which the route surfaces
as a 500 without committing anything. -/
def createBooking (store : Store) (data : InsertBooking) :
    Except Unit (Booking × Store) :=
  if store.resources.any (fun r => r.id == data.resourceId) then
    let b : Booking :=
      ⟨store.nextBookingId, data.resourceId, data.startTime, data.endTime,
        data.bookedBy, data.purpose⟩
    .ok (b, { store with
                bookings := store.bookings ++ [b],
                nextBookingId := store.nextBookingId + 1 })
  else
    .error ()

/-- `UPDATE bookings SET ...` applied to one row: only the fields present in the
partial payload are overwritten; the id column is never in the payload. -/
def applyBookingUpdate (data : UpdateBooking) (b : Booking) : Booking :=
  { b with
      resourceId := data.resourceId.getD b.resourceId,
      startTime := data.startTime.getD b.startTime,
      endTime := data.endTime.getD b.endTime,
      bookedBy := data.bookedBy.getD b.bookedBy,
      purpose := data.purpose.getD b.purpose }

/-- `DatabaseStorage.updateBooking`: `UPDATE bookings SET ... WHERE id = ?
RETURNING *`. Returns `.ok none` when no row matched (route answers 404);
throws (`.error`) when the payload sets `resourceId` to a value that violates
the foreign key — Postgres checks the constraint because the referencing
column is in the SET list. -/
def updateBooking (store : Store) (id : Nat) (data : UpdateBooking) :
    Except Unit (Option (Booking × Store)) :=
  match store.bookings.find? (fun b => b.id == id) with
  | none => .ok none
  | some b =>
      let fkOk : Bool :=
        match data.resourceId with
        | some r => store.resources.any (fun r2 => r2.id == r)
        | none => true
      if fkOk then
        .ok (some (applyBookingUpdate data b,
          { store with
              bookings := store.bookings.map
                (fun x => if x.id == id then applyBookingUpdate data x else x) }))
      else
        .error ()

/-- `DatabaseStorage.deleteBooking`: `DELETE FROM bookings WHERE id = ?`;
the boolean is `rowCount > 0`. -/
def deleteBookingOp (store : Store) (id : Nat) : Bool × Store :=
  let remaining := store.bookings.filter (fun b => !(b.id == id))
  (decide (remaining.length < store.bookings.length),
    { store with bookings := remaining })

/-- `DatabaseStorage.createResource`: `INSERT INTO resources`; the serial column
assigns `nextResourceId`. -/
def createResourceOp (store : Store) (data : InsertResource) : Resource × Store :=
  let r : Resource :=
    ⟨store.nextResourceId, data.name, data.description, data.location,
      data.capacity, data.isAvailable⟩
  (r, { store with
          resources := store.resources ++ [r],
          nextResourceId := store.nextResourceId + 1 })

/-- `UPDATE resources SET ...` applied to one row. -/
def applyResourceUpdate (data : UpdateResource) (r : Resource) : Resource :=
  { r with
      name := data.name.getD r.name,
      description := data.description.getD r.description,
      location := data.location.getD r.location,
      capacity := data.capacity.getD r.capacity,
      isAvailable := data.isAvailable.getD r.isAvailable }

/-- `DatabaseStorage.updateResource`: `UPDATE resources SET ... WHERE id = ?`. -/
def updateResourceOp (store : Store) (id : Nat) (data : UpdateResource) : Store :=
  { store with
      resources := store.resources.map
        (fun r => if r.id == id then applyResourceUpdate data r else r) }

/-- `DatabaseStorage.deleteResource`: `DELETE FROM resources WHERE id = ?`.
Postgres refuses the delete (FK `bookings.resourceId references resources.id`,
default NO ACTION) while any booking still references the resource; the route
catches the throw and commits nothing. -/
def deleteResourceOp (store : Store) (id : Nat) : Store :=
  if store.bookings.any (fun b => b.resourceId == id) then
    store
  else
    { store with resources := store.resources.filter (fun r => !(r.id == id)) }

/-! ### Route handlers for bookings (`server/routes.ts`) -/

/-- Outcome of `POST /api/bookings` (routes.ts lines 140-171). -/
inductive BookingPostOutcome where
  /-- 201 with the new row. -/
  | created (b : Booking)
  /-- 409 "This resource is already booked during the requested time...". -/
  | conflictError
  /-- 400 "End time must be after start time". -/
  | invalidIntervalError
  /-- 500 (the storage layer threw, e.g. FK violation). -/
  | serverError
deriving Repr, DecidableEq

/-- `POST /api/bookings`: the handler first awaits `checkBookingConflict` on the
validated payload (no exclusion) inside its try-block — a rejection falls to the
catch (500), `true` answers 409 — and only then validates
`endTime <= startTime`, answering 400; otherwise it inserts. -/
def postBooking (store : Store) (data : InsertBooking) :
    BookingPostOutcome × Store :=
  match checkBookingConflict store data.resourceId data.startTime data.endTime none with
  | .error _ => (.serverError, store)
  | .ok true => (.conflictError, store)
  | .ok false =>
      if data.endTime ≤ data.startTime then
        (.invalidIntervalError, store)
      else
        match createBooking store data with
        | .ok (b, store2) => (.created b, store2)
        | .error _ => (.serverError, store)

/-- Outcome of `PUT /api/bookings/:id` (routes.ts lines 173-226). -/
inductive BookingPutOutcome where
  /-- 200 with the updated row. -/
  | updated (b : Booking)
  /-- 404 "Booking not found". -/
  | notFound
  /-- 409 conflict. -/
  | conflictError
  /-- 400 "End time must be after start time". -/
  | invalidIntervalError
  /-- 500 (the storage layer threw). -/
  | serverError
deriving Repr, DecidableEq

/-- The guard `validatedData.resourceId || validatedData.startTime ||
validatedData.endTime` of the PUT handler. JavaScript truthiness: a present
`resourceId` of `0` is falsy, while any present `Date` object is truthy. -/
def putGuard (data : UpdateBooking) : Bool :=
  (match data.resourceId with
    | some r => r != 0
    | none => false)
    || data.startTime.isSome || data.endTime.isSome

/-- `validatedData.resourceId || existingBooking.bookings.resourceId`:
falls back to the stored value when the field is absent — or present but `0`,
again by JavaScript truthiness. -/
def mergedResourceId (data : UpdateBooking) (b : Booking) : Nat :=
  match data.resourceId with
  | some r => if r == 0 then b.resourceId else r
  | none => b.resourceId

/-- `validatedData.startTime || existingBooking.bookings.startTime`
(a present `Date` is always truthy). -/
def mergedStart (data : UpdateBooking) (b : Booking) : Int :=
  match data.startTime with
  | some t => t
  | none => b.startTime

/-- `validatedData.endTime || existingBooking.bookings.endTime`. -/
def mergedEnd (data : UpdateBooking) (b : Booking) : Int :=
  match data.endTime with
  | some t => t
  | none => b.endTime

/-- The unconditional tail of the PUT handler: `storage.updateBooking` and the
translation of its result into a response. -/
def putCommit (store : Store) (id : Nat) (data : UpdateBooking) :
    BookingPutOutcome × Store :=
  match updateBooking store id data with
  | .error _ => (.serverError, store)
  | .ok none => (.notFound, store)
  | .ok (some (b, store2)) => (.updated b, store2)

/-- `PUT /api/bookings/:id`: when the payload carries a (truthy) `resourceId`,
`startTime` or `endTime`, the handler loads the booking (404 if absent) and
awaits `checkBookingConflict` on the merged resource/interval excluding the
booking's own id — with the live exclusion code that call rejects for every
nonzero id, which the catch answers as 500; `true` would answer 409, then
`endTime <= startTime` 400, and only then the commit. A payload with none of
those fields commits directly. -/
def putBooking (store : Store) (id : Nat) (data : UpdateBooking) :
    BookingPutOutcome × Store :=
  if putGuard data then
    match getBooking store id with
    | none => (.notFound, store)
    | some existing =>
        match checkBookingConflict store (mergedResourceId data existing)
            (mergedStart data existing) (mergedEnd data existing) (some id) with
        | .error _ => (.serverError, store)
        | .ok true => (.conflictError, store)
        | .ok false =>
            if mergedEnd data existing ≤ mergedStart data existing then
              (.invalidIntervalError, store)
            else
              putCommit store id data
  else
    putCommit store id data

/-! ### Reachable store states and the per-resource non-overlap invariant -/

/-- One client-visible mutation through the REST API. -/
inductive Step : Store → Store → Prop where
  /-- `POST /api/resources`. -/
  | createRes (s : Store) (data : InsertResource) : Step s (createResourceOp s data).2
  /-- `PUT /api/resources/:id`. -/
  | updateRes (s : Store) (id : Nat) (data : UpdateResource) : Step s (updateResourceOp s id data)
  /-- `DELETE /api/resources/:id`. -/
  | deleteRes (s : Store) (id : Nat) : Step s (deleteResourceOp s id)
  /-- `POST /api/bookings`. -/
  | createBk (s : Store) (data : InsertBooking) : Step s (postBooking s data).2
  /-- `PUT /api/bookings/:id`. -/
  | updateBk (s : Store) (id : Nat) (data : UpdateBooking) : Step s (putBooking s id data).2
  /-- `DELETE /api/bookings/:id`. -/
  | deleteBk (s : Store) (id : Nat) : Step s (deleteBookingOp s id).2

/-- States reachable from the fresh database through the API. -/
inductive Reachable : Store → Prop where
  | init : Reachable emptyStore
  | step {s t : Store} : Reachable s → Step s t → Reachable t

/-- All booking ids in the list are pairwise distinct (serial primary key). -/
def IdsDistinct (l : List Booking) : Prop :=
  l.Pairwise (fun a b => a.id ≠ b.id)

/-- No two bookings of the list on the same resource overlap, where intervals
are read half-open: `[s, e)` and `[s', e')` overlap iff `s < e' ∧ s' < e`. -/
def NoPairOverlap (l : List Booking) : Prop :=
  l.Pairwise (fun a b => a.resourceId = b.resourceId →
    ¬(a.startTime < b.endTime ∧ b.startTime < a.endTime))

/-- The inductive invariant maintained by every API operation. -/
structure StoreOk (s : Store) : Prop where
  nextResourcePos : 1 ≤ s.nextResourceId
  nextBookingPos : 1 ≤ s.nextBookingId
  resourceIdsPos : ∀ r ∈ s.resources, 1 ≤ r.id
  bookingFields : ∀ b ∈ s.bookings, 1 ≤ b.id ∧ b.id < s.nextBookingId ∧ b.startTime < b.endTime
  idsDistinct : IdsDistinct s.bookings
  noOverlap : NoPairOverlap s.bookings

/-- Distinct list positions carry distinct ids, so two members sharing an id
are the same member. -/
lemma eq_of_mem_of_id_eq {l : List Booking} (hpw : IdsDistinct l)
    {a b : Booking} (ha : a ∈ l) (hb : b ∈ l) (h : a.id = b.id) : a = b := by
  induction l with
  | nil => cases ha
  | cons x xs ih =>
      rcases List.pairwise_cons.mp hpw with ⟨hx, hxs⟩
      rcases List.mem_cons.mp ha with rfl | ha2
      · rcases List.mem_cons.mp hb with rfl | hb2
        · rfl
        · exact absurd h (hx _ hb2)
      · rcases List.mem_cons.mp hb with rfl | hb2
        · exact absurd h.symm (hx _ ha2)
        · exact ih hxs ha2 hb2

lemma storeOk_empty : StoreOk emptyStore := by
  refine ⟨le_refl 1, le_refl 1, ?_, ?_, ?_, ?_⟩ <;>
    simp [emptyStore, IdsDistinct, NoPairOverlap]

/-- `POST /api/resources` preserves the invariant. -/
lemma storeOk_createRes {s : Store} (h : StoreOk s) (data : InsertResource) :
    StoreOk (createResourceOp s data).2 := by
  refine ⟨?_, h.nextBookingPos, ?_, h.bookingFields, h.idsDistinct, h.noOverlap⟩
  · exact le_trans h.nextResourcePos (Nat.le_succ _)
  · intro r hr
    simp only [createResourceOp, List.mem_append, List.mem_singleton] at hr
    rcases hr with hr | rfl
    · exact h.resourceIdsPos r hr
    · exact h.nextResourcePos

/-- `PUT /api/resources/:id` preserves the invariant. -/
lemma storeOk_updateRes {s : Store} (h : StoreOk s) (id : Nat) (data : UpdateResource) :
    StoreOk (updateResourceOp s id data) := by
  refine ⟨h.nextResourcePos, h.nextBookingPos, ?_, h.bookingFields, h.idsDistinct, h.noOverlap⟩
  intro r hr
  simp only [updateResourceOp, List.mem_map] at hr
  obtain ⟨r0, hr0, hmap⟩ := hr
  have hid : r.id = r0.id := by
    subst hmap
    by_cases hc : r0.id == id <;> simp [hc, applyResourceUpdate]
  rw [hid]
  exact h.resourceIdsPos r0 hr0

/-- `DELETE /api/resources/:id` preserves the invariant. -/
lemma storeOk_deleteRes {s : Store} (h : StoreOk s) (id : Nat) :
    StoreOk (deleteResourceOp s id) := by
  unfold deleteResourceOp
  by_cases hc : s.bookings.any (fun b => b.resourceId == id)
  · simpa [hc] using h
  · simp only [hc, if_false]
    refine ⟨h.nextResourcePos, h.nextBookingPos, ?_, h.bookingFields, h.idsDistinct, h.noOverlap⟩
    intro r hr
    exact h.resourceIdsPos r (List.mem_of_mem_filter hr)

/-- `DELETE /api/bookings/:id` preserves the invariant. -/
lemma storeOk_deleteBk {s : Store} (h : StoreOk s) (id : Nat) :
    StoreOk (deleteBookingOp s id).2 := by
  refine ⟨h.nextResourcePos, h.nextBookingPos, h.resourceIdsPos, ?_, ?_, ?_⟩
  · intro b hb
    exact h.bookingFields b (List.mem_of_mem_filter hb)
  · exact (h.idsDistinct).sublist (List.filter_sublist _)
  · exact (h.noOverlap).sublist (List.filter_sublist _)

/-- In an invariant-satisfying store, any two bookings with different ids on the
same resource do not strictly overlap (symmetric form of `noOverlap`). -/
lemma storeOk_pair {s : Store} (h : StoreOk s) {a b : Booking}
    (ha : a ∈ s.bookings) (hb : b ∈ s.bookings) (hne : a.id ≠ b.id) :
    a.resourceId = b.resourceId →
      ¬(a.startTime < b.endTime ∧ b.startTime < a.endTime) := by
  have hpw := h.idsDistinct.and h.noOverlap
  have hsym : Symmetric (fun a b : Booking => a.id ≠ b.id ∧
      (a.resourceId = b.resourceId →
        ¬(a.startTime < b.endTime ∧ b.startTime < a.endTime))) := by
    intro x y hxy
    refine ⟨Ne.symm hxy.1, fun hrid hov => hxy.2 hrid.symm ⟨hov.2, hov.1⟩⟩
  have hab : a ≠ b := fun hab => hne (by rw [hab])
  exact (hpw.forall hsym ha hb hab).2

lemma applyBookingUpdate_id (data : UpdateBooking) (b : Booking) :
    (applyBookingUpdate data b).id = b.id := rfl

lemma applyBookingUpdate_startTime (data : UpdateBooking) (b : Booking) :
    (applyBookingUpdate data b).startTime = mergedStart data b := by
  cases hd : data.startTime <;> simp [applyBookingUpdate, mergedStart, hd]

lemma applyBookingUpdate_endTime (data : UpdateBooking) (b : Booking) :
    (applyBookingUpdate data b).endTime = mergedEnd data b := by
  cases hd : data.endTime <;> simp [applyBookingUpdate, mergedEnd, hd]

lemma applyBookingUpdate_resourceId {data : UpdateBooking} (b : Booking)
    (h : data.resourceId ≠ some 0) :
    (applyBookingUpdate data b).resourceId = mergedResourceId data b := by
  cases hd : data.resourceId with
  | none => simp [applyBookingUpdate, mergedResourceId, hd]
  | some r =>
      have hr : r ≠ 0 := by
        rintro rfl
        exact h hd
      simp [applyBookingUpdate, mergedResourceId, hd, hr]

/-- `POST /api/bookings` preserves the invariant. -/
lemma storeOk_postBooking {s : Store} (h : StoreOk s) (data : InsertBooking) :
    StoreOk (postBooking s data).2 := by
  unfold postBooking
  rw [show checkBookingConflict s data.resourceId data.startTime data.endTime none =
    .ok (conflictQuery s data.resourceId data.startTime data.endTime) from rfl]
  cases hc : conflictQuery s data.resourceId data.startTime data.endTime with
  | true => exact h
  | false =>
    dsimp only
    by_cases hv : data.endTime ≤ data.startTime
    · simpa [hv] using h
    · simp only [if_neg hv]
      unfold createBooking
      by_cases hfk : (s.resources.any fun r => r.id == data.resourceId) = true
      · simp only [if_pos hfk]
        refine ⟨h.nextResourcePos, le_trans h.nextBookingPos (Nat.le_succ _), h.resourceIdsPos,
          ?_, ?_, ?_⟩
        · intro b hb
          rcases List.mem_append.mp hb with hb | hb
          · obtain ⟨h1, h2, h3⟩ := h.bookingFields b hb
            exact ⟨h1, Nat.lt_succ_of_lt h2, h3⟩
          · rw [List.mem_singleton.mp hb]
            exact ⟨h.nextBookingPos, Nat.lt_succ_self _, show data.startTime < data.endTime by omega⟩
        · rw [IdsDistinct, List.pairwise_append]
          refine ⟨h.idsDistinct, List.pairwise_singleton _ _, ?_⟩
          intro a ha b hb
          rw [List.mem_singleton.mp hb]
          have := (h.bookingFields a ha).2.1
          show a.id ≠ s.nextBookingId
          omega
        · rw [NoPairOverlap, List.pairwise_append]
          refine ⟨h.noOverlap, List.pairwise_singleton _ _, ?_⟩
          intro a ha b hb
          rw [List.mem_singleton.mp hb]
          intro hrid hov
          exact no_overlap_of_query_false hc ha hrid ⟨hov.2, hov.1⟩
      · simp only [if_neg hfk]
        exact h

/-- The committed `UPDATE bookings` row-map preserves the invariant, provided the
written row is interval-valid and conflicts with no other row of its resource. -/
lemma storeOk_updateCommit {s : Store} (h : StoreOk s) {id : Nat}
    {data : UpdateBooking} {existing : Booking}
    (hfind : s.bookings.find? (fun b => b.id == id) = some existing)
    (hr0 : data.resourceId ≠ some 0)
    (hvalid : mergedStart data existing < mergedEnd data existing)
    (hnoconf : ∀ b ∈ s.bookings, b.id ≠ id →
      b.resourceId = mergedResourceId data existing →
      ¬(mergedStart data existing < b.endTime ∧
        b.startTime < mergedEnd data existing)) :
    StoreOk { s with bookings := s.bookings.map (fun x => if x.id == id then applyBookingUpdate data x else x) } := by
  have hmem : existing ∈ s.bookings := List.mem_of_find?_eq_some hfind
  have hid : existing.id = id := by
    have := List.find?_some hfind
    simpa using this
  refine ⟨h.nextResourcePos, h.nextBookingPos, h.resourceIdsPos, ?_, ?_, ?_⟩
  · intro b hb
    simp only [List.mem_map] at hb
    obtain ⟨x, hx, hmap⟩ := hb
    by_cases hxi : x.id = id
    · have hxe : x = existing := eq_of_mem_of_id_eq h.idsDistinct hx hmem (by rw [hxi, hid])
      subst hxe
      rw [← hmap]
      simp only [hxi, beq_self_eq_true, if_true]
      obtain ⟨h1, h2, _⟩ := h.bookingFields x hx
      refine ⟨?_, ?_, ?_⟩
      · rw [applyBookingUpdate_id]
        exact h1
      · rw [applyBookingUpdate_id]
        exact h2
      · rw [applyBookingUpdate_startTime, applyBookingUpdate_endTime]
        exact hvalid
    · rw [← hmap]
      simp only [beq_iff_eq, hxi, if_false]
      exact h.bookingFields x hx
  · rw [IdsDistinct, List.pairwise_map]
    refine h.idsDistinct.imp ?_
    intro a b hab
    by_cases hai : a.id = id <;> by_cases hbi : b.id = id <;>
      simp [hai, hbi, applyBookingUpdate_id, hab] <;> omega
  · rw [NoPairOverlap, List.pairwise_map]
    have hcomb := h.idsDistinct.and h.noOverlap
    refine List.Pairwise.imp_of_mem ?_ hcomb
    intro a b ha hb hab
    obtain ⟨hne, hov⟩ := hab
    by_cases hai : a.id = id <;> by_cases hbi : b.id = id
    · exact absurd (hai.trans hbi.symm) hne
    · have hae : a = existing := eq_of_mem_of_id_eq h.idsDistinct ha hmem (by rw [hai, hid])
      have ht : (a.id == id) = true := by simp [hai]
      have hf : (b.id == id) = false := by simp [hbi]
      simp only [ht, hf, if_true, if_false]
      intro hrid hov2
      rw [applyBookingUpdate_resourceId _ hr0, hae] at hrid
      rw [applyBookingUpdate_startTime, applyBookingUpdate_endTime, hae] at hov2
      exact hnoconf b hb hbi hrid.symm hov2
    · have hbe : b = existing := eq_of_mem_of_id_eq h.idsDistinct hb hmem (by rw [hbi, hid])
      have ht : (b.id == id) = true := by simp [hbi]
      have hf : (a.id == id) = false := by simp [hai]
      simp only [ht, hf, if_true, if_false]
      intro hrid hov2
      rw [applyBookingUpdate_resourceId _ hr0, hbe] at hrid
      rw [applyBookingUpdate_startTime, applyBookingUpdate_endTime, hbe] at hov2
      exact hnoconf a ha hai hrid ⟨hov2.2, hov2.1⟩
    · have hf1 : (a.id == id) = false := by simp [hai]
      have hf2 : (b.id == id) = false := by simp [hbi]
      simp only [hf1, hf2, if_false]
      exact hov

/-- Reading off a `false` PUT guard: no time field present, and `resourceId`
absent or the falsy `0`. -/
lemma putGuard_false {data : UpdateBooking} (h : putGuard data = false) :
    data.startTime = none ∧ data.endTime = none ∧
      (data.resourceId = none ∨ data.resourceId = some 0) := by
  unfold putGuard at h
  rcases hsr : data.resourceId with _ | r <;> rcases hst : data.startTime with _ | t <;>
    rcases hen : data.endTime with _ | u <;> simp_all

/-- In an invariant-satisfying store no resource row has id `0`
(serial ids start at 1), so a lookup by id `0` always fails. -/
lemma resources_any_zero_eq_false {s : Store} (h : StoreOk s) :
    (s.resources.any fun r2 => r2.id == 0) = false := by
  rw [List.any_eq_false]
  intro r hr
  have := h.resourceIdsPos r hr
  simp
  omega

/-- `PUT /api/bookings/:id` preserves the invariant. -/
lemma storeOk_putBooking {s : Store} (h : StoreOk s) (id : Nat) (data : UpdateBooking) :
    StoreOk (putBooking s id data).2 := by
  unfold putBooking
  cases hgd : putGuard data with
  | false =>
      simp only [Bool.false_eq_true, if_false]
      obtain ⟨hst, hen, hsr⟩ := putGuard_false hgd
      unfold putCommit updateBooking
      cases hfind : s.bookings.find? (fun b => b.id == id) with
      | none => exact h
      | some b =>
          rcases hsr with hsr | hsr
          · simp only [hsr]
            have hmem : b ∈ s.bookings := List.mem_of_find?_eq_some hfind
            have hbid : b.id = id := by simpa using List.find?_some hfind
            refine storeOk_updateCommit h hfind (by simp [hsr]) ?_ ?_
            · have := (h.bookingFields b hmem).2.2
              simp [mergedStart, mergedEnd, hst, hen]
              omega
            · intro other hother hne hrid hov
              have hpair := storeOk_pair h hother hmem (by omega)
              rw [mergedResourceId, hsr] at hrid
              rw [mergedStart, mergedEnd, hst, hen] at hov
              exact hpair hrid ⟨hov.2, hov.1⟩
          · simp only [hsr, resources_any_zero_eq_false h, Bool.false_eq_true, if_false]
            exact h
  | true =>
      simp only [if_true]
      cases hg : getBooking s id with
      | none => exact h
      | some existing =>
          dsimp only
          have hmem : existing ∈ s.bookings := List.mem_of_find?_eq_some hg
          have heid : existing.id = id := by simpa using List.find?_some hg
          have hid0 : id ≠ 0 := by
            have := (h.bookingFields existing hmem).1
            omega
          have hcerr : checkBookingConflict s (mergedResourceId data existing)
              (mergedStart data existing) (mergedEnd data existing) (some id) =
              .error () := by
            simp [checkBookingConflict, exclTruthy, hid0]
          rw [hcerr]
          exact h

/-- Every API step preserves the invariant. -/
lemma storeOk_step {s t : Store} (h : StoreOk s) (hst : Step s t) : StoreOk t := by
  cases hst with
  | createRes data => exact storeOk_createRes h data
  | updateRes id data => exact storeOk_updateRes h id data
  | deleteRes id => exact storeOk_deleteRes h id
  | createBk data => exact storeOk_postBooking h data
  | updateBk id data => exact storeOk_putBooking h id data
  | deleteBk id => exact storeOk_deleteBk h id

/-- Every reachable store satisfies the invariant. -/
lemma storeOk_of_reachable {s : Store} (h : Reachable s) : StoreOk s := by
  induction h with
  | init => exact storeOk_empty
  | step _ hst ih => exact storeOk_step ih hst

/-! ### Concrete stores used by counterexamples and witnesses
(times in minutes: 600 = 10:00, 660 = 11:00, 690 = 11:30, 720 = 12:00) -/

def resourceOne : Resource := ⟨1, "Room A", none, "HQ", 4, true⟩

def bookingTenToEleven : Booking := ⟨1, 1, 600, 660, "alice", "standup"⟩

/-- One resource, one booking [10:00, 11:00) on it. -/
def storeOneBooking : Store := ⟨[resourceOne], [bookingTenToEleven], 2, 2⟩

def bookingA5 : Booking := ⟨5, 1, 600, 660, "alice", "standup"⟩

/-- Booking A (id = 5) = [10:00, 11:00) is the only booking. -/
def storeA5 : Store := ⟨[resourceOne], [bookingA5], 2, 6⟩

/-- One resource, one booking [10:00, 12:00) on it. -/
def storeBusy : Store := ⟨[resourceOne], [⟨1, 1, 600, 720, "bob", "offsite"⟩], 2, 2⟩

/-- A degenerate candidate: start == end == 11:00, on resource 1. -/
def dataDegenerate : InsertBooking := ⟨1, 660, 660, "carol", "sync"⟩

/-- A store violating the non-overlap invariant: bookings 1 = [10:00, 12:00)
and 2 = [11:00, 13:00) both on resource 1 (not reachable via the API; used to
observe which code paths consult the conflict checker). -/
def storeIll : Store := ⟨[resourceOne], [⟨1, 1, 600, 720, "a", "x"⟩, ⟨2, 1, 660, 780, "b", "y"⟩], 2, 3⟩

/-- A PUT payload touching neither time nor resource. -/
def purposeOnly : UpdateBooking := ⟨none, none, none, none, some "rescheduled"⟩

/-- Two disjoint bookings on resource 1: id 1 = [10:00, 11:00), id 2 = [12:00, 13:00). -/
def storeTwoBookings : Store := ⟨[resourceOne], [⟨1, 1, 600, 660, "alice", "standup"⟩, ⟨2, 1, 720, 780, "bob", "retro"⟩], 2, 3⟩

/-- A PUT payload moving a booking to [10:30, 11:30). -/
def moveData : UpdateBooking := ⟨none, some 630, some 690, none, none⟩

def demoResource : InsertResource := ⟨"Room A", none, "HQ", 4, true⟩

def demoBooking : InsertBooking := ⟨1, 600, 660, "alice", "standup"⟩

def demoBooking2 : InsertBooking := ⟨1, 720, 780, "bob", "retro"⟩

def demoStore1 : Store := (createResourceOp emptyStore demoResource).2

def demoStore2 : Store := (postBooking demoStore1 demoBooking).2

def demoStore3 : Store := (postBooking demoStore2 demoBooking2).2

/-! ### Further helper lemmas -/

/-- Rows of other resources never influence the `any` over the row filter. -/
lemma any_matches_filter (l : List Booking) (rid : Nat) (s e : Int) :
    (l.filter (fun b => b.resourceId == rid)).any (bookingMatches rid s e) =
      l.any (bookingMatches rid s e) := by
  induction l with
  | nil => rfl
  | cons b t ih =>
      by_cases hb : (b.resourceId == rid) = true
      · simp [List.filter_cons, hb, List.any_cons, ih]
      · have hb2 : (b.resourceId == rid) = false := by simpa using hb
        have hm : bookingMatches rid s e b = false := by
          unfold bookingMatches
          simp [hb2]
        simp [List.filter_cons, hb, List.any_cons, hm, ih]

/-! ### The claims -/

/-- C1 (counterexample): the checker is not the half-open overlap test. With the
single booking [10:00, 11:00) on resource 1, the candidate [11:00, 12:00) is
reported as a conflict although no booking satisfies
`start < B.end AND B.start < end`. -/
theorem spec_C1_counterexample :
    checkBookingConflict storeOneBooking 1 660 720 none = .ok true ∧
    ¬∃ b ∈ storeOneBooking.bookings,
      b.resourceId = 1 ∧ (660 : Int) < b.endTime ∧ b.startTime < 720 :=
  ⟨rfl, by decide⟩

/-- C1 (amended): for valid intervals, `checkBookingConflict` without exclusion
answers `true` iff some existing booking of the resource weakly overlaps the
candidate, `start <= B.end AND B.start <= end` — closed-interval, not
half-open, semantics. -/
theorem spec_C1 (store : Store) (rid : Nat) (s e : Int) (hcand : s < e)
    (hvalid : ∀ b ∈ store.bookings, b.startTime < b.endTime) :
    checkBookingConflict store rid s e none = .ok true ↔
      ∃ b ∈ store.bookings, b.resourceId = rid ∧ s ≤ b.endTime ∧ b.startTime ≤ e := by
  rw [show checkBookingConflict store rid s e none =
    .ok (conflictQuery store rid s e) from rfl]
  simp only [Except.ok.injEq]
  rw [conflictQuery_iff]
  constructor
  · rintro ⟨b, hb, hrid, hov⟩
    have := hvalid b hb
    exact ⟨b, hb, hrid, by omega⟩
  · rintro ⟨b, hb, hrid, h1, h2⟩
    have := hvalid b hb
    exact ⟨b, hb, hrid, by omega⟩

/-- C1 witness: the amended equivalence evaluated on the concrete store. -/
theorem spec_C1_witness :
    (630 : Int) < 690 ∧ (∀ b ∈ storeOneBooking.bookings, b.startTime < b.endTime) ∧
    (checkBookingConflict storeOneBooking 1 630 690 none = .ok true ↔
      ∃ b ∈ storeOneBooking.bookings,
        b.resourceId = 1 ∧ (630 : Int) ≤ b.endTime ∧ b.startTime ≤ 690) :=
  ⟨by decide, by decide, spec_C1 storeOneBooking 1 630 690 (by decide) (by decide)⟩

/-- C2 (code bug): in the spec's own scenario — A (id = 5) = [10:00, 11:00) the
only booking — the live checker never removes A from the comparison set: the
truthy `excludeBookingId = 5` takes the broken
`query.where(and(query.where, eq(bookings.id, 5)))` branch and the call
rejects (the route answers 500) instead of returning `false`; without the
exclusion the candidate [10:30, 11:30) conflicts against A itself, so every
update of A is either a spurious conflict or a server error. The repository's
second storage copy (`src/unnamed`, imported by nothing) fixes exactly this
line to `not(eq(bookings.id, excludeBookingId))`, confirming the intent. -/
theorem spec_C2 :
    checkBookingConflict storeA5 1 630 690 (some 5) = .error () ∧
    checkBookingConflict storeA5 1 630 690 none = .ok true :=
  ⟨rfl, rfl⟩

/-- C3 (counterexample): with A = [10:00, 11:00) on resource 1 stored, the
candidate [11:00, 12:00) on resource 1 IS reported as a conflict — the claim
that exact abutment is conflict-free fails on the inclusive comparisons. -/
theorem spec_C3_counterexample :
    checkBookingConflict storeOneBooking 1 660 720 none = .ok true := rfl

/-- C3 (amended): a candidate that starts exactly at the instant an existing
booking of the same resource ends is always flagged as a conflict (closed
boundary semantics). -/
theorem spec_C3 (store : Store) (rid : Nat) (b : Booking) (hb : b ∈ store.bookings)
    (hr : b.resourceId = rid) (hv : b.startTime ≤ b.endTime) (e2 : Int) :
    checkBookingConflict store rid b.endTime e2 none = .ok true := by
  have hq : conflictQuery store rid b.endTime e2 = true := by
    rw [conflictQuery_iff]
    exact ⟨b, hb, hr, Or.inl ⟨hv, le_refl _⟩⟩
  simp [checkBookingConflict, exclTruthy, hq]

/-- C3 witness: the amended statement evaluated on the concrete store. -/
theorem spec_C3_witness :
    bookingTenToEleven ∈ storeOneBooking.bookings ∧
    bookingTenToEleven.resourceId = 1 ∧
    bookingTenToEleven.startTime ≤ bookingTenToEleven.endTime ∧
    checkBookingConflict storeOneBooking 1 bookingTenToEleven.endTime 720 none = .ok true :=
  ⟨by decide, by decide, by decide,
    spec_C3 storeOneBooking 1 bookingTenToEleven (by decide) (by decide) (by decide) 720⟩

/-- C4: in every store reachable through the API from the fresh database, no two
bookings of the same resource share any instant (reading intervals half-open). -/
theorem spec_C4 (s : Store) (h : Reachable s) :
    s.bookings.Pairwise (fun a b => a.resourceId = b.resourceId →
      ∀ t : Int, ¬(a.startTime ≤ t ∧ t < a.endTime ∧ b.startTime ≤ t ∧ t < b.endTime)) := by
  have hok := storeOk_of_reachable h
  have hpw : s.bookings.Pairwise (fun a b => a.resourceId = b.resourceId →
      ¬(a.startTime < b.endTime ∧ b.startTime < a.endTime)) := hok.noOverlap
  refine hpw.imp ?_
  intro a b hab hrid t ht
  exact hab hrid ⟨by omega, by omega⟩

/-- C4 witness: a concrete three-step run (create resource, create two disjoint
bookings) whose final state satisfies the invariant. -/
theorem spec_C4_witness :
    Reachable demoStore3 ∧
    demoStore3.bookings.Pairwise (fun a b => a.resourceId = b.resourceId →
      ∀ t : Int, ¬(a.startTime ≤ t ∧ t < a.endTime ∧ b.startTime ≤ t ∧ t < b.endTime)) := by
  have h1 : Reachable demoStore1 :=
    Reachable.step Reachable.init (Step.createRes emptyStore demoResource)
  have h2 : Reachable demoStore2 :=
    Reachable.step h1 (Step.createBk demoStore1 demoBooking)
  have h3 : Reachable demoStore3 :=
    Reachable.step h2 (Step.createBk demoStore2 demoBooking2)
  exact ⟨h3, spec_C4 demoStore3 h3⟩

/-- C5 (counterexample): with [10:00, 12:00) booked on resource 1, the degenerate
candidate [11:00, 11:00) is answered with the Conflict error, not the
InvalidInterval error — the POST handler checks conflicts first. -/
theorem spec_C5_counterexample :
    (postBooking storeBusy dataDegenerate).1 = BookingPostOutcome.conflictError ∧
    (postBooking storeBusy dataDegenerate).1 ≠ BookingPostOutcome.invalidIntervalError := by
  decide

/-- C5 (amended): a candidate with `end == start` is always rejected and the
store is unchanged, but the error is InvalidInterval only when the conflict
query (which runs first) found nothing; otherwise it is the Conflict error. -/
theorem spec_C5 (store : Store) (data : InsertBooking)
    (hdeg : data.endTime = data.startTime) :
    (postBooking store data).2 = store ∧
    (postBooking store data).1 =
      (if conflictQuery store data.resourceId data.startTime data.endTime
        then BookingPostOutcome.conflictError
        else BookingPostOutcome.invalidIntervalError) := by
  unfold postBooking
  rw [show checkBookingConflict store data.resourceId data.startTime data.endTime none =
    .ok (conflictQuery store data.resourceId data.startTime data.endTime) from rfl]
  cases hc : conflictQuery store data.resourceId data.startTime data.endTime with
  | true => exact ⟨rfl, rfl⟩
  | false =>
      have hle : data.endTime ≤ data.startTime := le_of_eq hdeg
      simp [hle]

/-- C5 witness: the amended statement on the empty store, where the degenerate
candidate is answered with InvalidInterval. -/
theorem spec_C5_witness :
    dataDegenerate.endTime = dataDegenerate.startTime ∧
    ((postBooking emptyStore dataDegenerate).2 = emptyStore ∧
      (postBooking emptyStore dataDegenerate).1 =
        (if conflictQuery emptyStore dataDegenerate.resourceId
            dataDegenerate.startTime dataDegenerate.endTime
          then BookingPostOutcome.conflictError
          else BookingPostOutcome.invalidIntervalError)) :=
  ⟨rfl, spec_C5 emptyStore dataDegenerate rfl⟩

/-- C6 (counterexample): a PUT that changes only `purpose` commits and mutates
the store without any conflict check, although the check the claim demands —
the overlap rule on the booking's unchanged interval and resource with the
booking itself removed from the comparison set — reports a conflict in
`storeIll`. -/
theorem spec_C6_counterexample :
    conflictQuery { storeIll with bookings := storeIll.bookings.filter (fun b => !(b.id == 1)) } 1 600 720 = true ∧
    (putBooking storeIll 1 purposeOnly).1 =
      BookingPutOutcome.updated ⟨1, 1, 600, 720, "a", "rescheduled"⟩ ∧
    (putBooking storeIll 1 purposeOnly).2 ≠ storeIll := by
  decide

/-- C6 (amended): the PUT handler attempts the conflict re-run only when the
payload carries a truthy `resourceId`, a `startTime` or an `endTime`; for any
existing booking (nonzero id) that attempt hits the broken exclusion branch,
so the route answers 500 and never commits, while a payload with none of
those fields commits directly without consulting the checker at all. -/
theorem spec_C6 :
    (∀ (store : Store) (id : Nat) (data : UpdateBooking) (existing : Booking),
      putGuard data = true → getBooking store id = some existing → id ≠ 0 →
      putBooking store id data = (BookingPutOutcome.serverError, store)) ∧
    (∀ (store : Store) (id : Nat) (data : UpdateBooking),
      putGuard data = false → putBooking store id data = putCommit store id data) := by
  constructor
  · intro store id data existing hg hget hid0
    unfold putBooking
    rw [hg, hget]
    dsimp only
    have hcerr : checkBookingConflict store (mergedResourceId data existing)
        (mergedStart data existing) (mergedEnd data existing) (some id) =
        .error () := by
      simp [checkBookingConflict, exclTruthy, hid0]
    rw [hcerr]
    rfl
  · intro store id data hg
    unfold putBooking
    rw [hg]
    simp

/-- C6 witness: both branches exercised — moving booking 2 onto booking 1's slot
is answered 500 (the checker call rejects) without committing, and a
purpose-only PUT goes straight to the commit path. -/
theorem spec_C6_witness :
    (putGuard moveData = true ∧
      getBooking storeTwoBookings 2 = some ⟨2, 1, 720, 780, "bob", "retro"⟩ ∧
      (2 : Nat) ≠ 0 ∧
      putBooking storeTwoBookings 2 moveData =
        (BookingPutOutcome.serverError, storeTwoBookings)) ∧
    (putGuard purposeOnly = false ∧
      putBooking storeTwoBookings 1 purposeOnly = putCommit storeTwoBookings 1 purposeOnly) :=
  ⟨⟨by decide, by decide, by decide,
      spec_C6.1 storeTwoBookings 2 moveData ⟨2, 1, 720, 780, "bob", "retro"⟩
        (by decide) (by decide) (by decide)⟩,
    ⟨by decide, spec_C6.2 storeTwoBookings 1 purposeOnly (by decide)⟩⟩

/-- C7: bookings of other resources never contribute to the checker's outcome —
for every argument list (exclusion included) the result is unchanged after
dropping all rows of other resources — and concretely a candidate on
resource 2 does not conflict with [10:00, 11:00) on resource 1. -/
theorem spec_C7 :
    (∀ (store : Store) (rid : Nat) (s e : Int) (excl : Option Nat),
      checkBookingConflict store rid s e excl =
        checkBookingConflict
          { store with bookings := store.bookings.filter (fun b => b.resourceId == rid) }
          rid s e excl) ∧
    checkBookingConflict storeOneBooking 2 600 660 none = .ok false := by
  constructor
  · intro store rid s e excl
    unfold checkBookingConflict
    cases hex : exclTruthy excl with
    | true => rfl
    | false => exact congrArg Except.ok (any_matches_filter store.bookings rid s e).symm
  · rfl

/-- C8: the three inclusive sub-cases implemented in the checker are, for valid
intervals, equivalent to the single inequality `s1 <= e2 AND s2 <= e1`. -/
theorem spec_C8 (s1 e1 s2 e2 : Int) (h1 : s1 < e1) (h2 : s2 < e2) :
    threeCaseOverlap s1 e1 s2 e2 = true ↔ (s1 ≤ e2 ∧ s2 ≤ e1) := by
  unfold threeCaseOverlap
  simp only [Bool.or_eq_true, Bool.and_eq_true, decide_eq_true_eq, ge_iff_le]
  constructor
  · intro h
    omega
  · intro h
    omega

/-- C8 witness: the equivalence evaluated at [0,2) versus [1,3). -/
theorem spec_C8_witness :
    (0 : Int) < 2 ∧ (1 : Int) < 3 ∧
    (threeCaseOverlap 0 2 1 3 = true ↔ ((0 : Int) ≤ 3 ∧ (1 : Int) ≤ 2)) :=
  ⟨by decide, by decide, spec_C8 0 2 1 3 (by decide) (by decide)⟩

/-- C9 (code bug): the claim's "the checker itself does not fail" is violated by
the live code — every truthy `excludeBookingId` takes the broken second
`.where` and the call rejects instead of returning a boolean; only
exclusion-free calls (or the falsy `0`) run the pure base query, which does
return `false` for a resource with no bookings. -/
theorem spec_C9 :
    (∀ (store : Store) (rid : Nat) (s e : Int) (eid : Nat), eid ≠ 0 →
      checkBookingConflict store rid s e (some eid) = .error ()) ∧
    (∀ (store : Store) (rid : Nat) (s e : Int),
      (∀ b ∈ store.bookings, b.resourceId ≠ rid) →
      checkBookingConflict store rid s e none = .ok false) := by
  constructor
  · intro store rid s e eid hne
    simp [checkBookingConflict, exclTruthy, hne]
  · intro store rid s e hno
    have hq : conflictQuery store rid s e = false := by
      rw [← Bool.not_eq_true, conflictQuery_iff]
      rintro ⟨b, hb, hrid, -⟩
      exact hno b hb hrid
    simp [checkBookingConflict, exclTruthy, hq]

/-- C9 witness: evaluated for resource 2 (which has no bookings) in the
one-booking store: with a truthy exclusion the call errors, without one it
returns `false`. -/
theorem spec_C9_witness :
    ((5 : Nat) ≠ 0 ∧
      checkBookingConflict storeOneBooking 2 600 660 (some 5) = .error ()) ∧
    ((∀ b ∈ storeOneBooking.bookings, b.resourceId ≠ 2) ∧
      checkBookingConflict storeOneBooking 2 600 660 none = .ok false) :=
  ⟨⟨by decide, spec_C9.1 storeOneBooking 2 600 660 5 (by decide)⟩,
    ⟨by decide, spec_C9.2 storeOneBooking 2 600 660 (by decide)⟩⟩

/-- C10: passing `excludeBookingId = 0` is the same as passing no exclusion at
all — the JavaScript truthiness guard `if (excludeBookingId)` drops `0`, so
the broken exclusion branch is skipped and the base query runs. -/
theorem spec_C10 : ∀ (store : Store) (rid : Nat) (s e : Int),
    checkBookingConflict store rid s e (some 0) =
      checkBookingConflict store rid s e none := by
  intro store rid s e
  rfl
